import Mathlib

/-!
Verification of the BX0 interpreter (parser.py and bx0_interpreter.py).

The AST `Node` class of parser.py carries an opcode string, a `value` field
that may hold nothing, a string, an integer literal or a child node, and a
tuple of kids each of which is a string or a node.  The evaluator
(bx0_interpreter.py) walks such nodes; arithmetic is exact integer
arithmetic truncated to 64-bit two's complement after each binary or unary
operation.
-/

namespace BX0

mutual

/-- The `value` field of a `Node`: `None`, a string, an integer or a node. -/
inductive NVal where
  | none : NVal
  | str : String → NVal
  | int : Int → NVal
  | node : Node → NVal

/-- An element of a node's `kids` tuple: a string (the assignment target) or
a child node. -/
inductive Kid where
  | str : String → Kid
  | node : Node → Kid

/-- `Node(opcode, value, *kids)` from parser.py. -/
inductive Node where
  | mk : String → NVal → List Kid → Node

end

/-- `node.opcode`. -/
def Node.opcode : Node → String
  | .mk o _ _ => o

/-- `node.value`. -/
def Node.value : Node → NVal
  | .mk _ v _ => v

/-- `node.kids`. -/
def Node.kids : Node → List Kid
  | .mk _ _ k => k

/-- The `vars` dictionary: variable name to value, insertion order. -/
abbrev Env := List (String × Int)

/-- Dictionary lookup `vars[name]` / `name in vars.keys()`. -/
def lookupVar : Env → String → Option Int
  | [], _ => Option.none
  | (k, v) :: rest, name => if k = name then some v else lookupVar rest name

/-- Dictionary update `vars[name] = v` (overwrite in place or append). -/
def setVar : Env → String → Int → Env
  | [], name, v => [(name, v)]
  | (k, w) :: rest, name, v =>
      if k = name then (k, v) :: rest else (k, w) :: setVar rest name v

/-- `truncate_number` of bx0_interpreter.py: `num & 0xffffffffffffffff`
reduces to the unsigned 64-bit range (written here as reduction modulo
2^64 = 18446744073709551616), then, if the sign bit is set (that is, the
reduced value is at least 2^63 = 9223372036854775808), subtract 2^64. -/
def truncate_number (num : Int) : Int :=
  let m := num % 18446744073709551616
  if 9223372036854775808 ≤ m then m - 18446744073709551616 else m

/-- How evaluation can abort: the `sys.exit(1)` taken for an undefined
variable, the uncaught `ZeroDivisionError` of `//` and `%`, the uncaught
`ValueError` of a negative shift count, and the crashes (`KeyError`,
`AttributeError`, `None` propagation) on nodes the parser never builds. -/
inductive EvalErr where
  | undefinedVariable : String → EvalErr
  | zeroDivision : EvalErr
  | negativeShift : EvalErr
  | malformed : EvalErr
deriving DecidableEq, Repr

/-- The key set of the binary-operator dictionary in `evaluate_expression`. -/
def isBinop (op : String) : Bool :=
  op = "+" || op = "-" || op = "*" || op = "/" || op = "%" ||
  op = "&" || op = "|" || op = "^" || op = "<<" || op = ">>"

/-- The lambda the binary-operator dictionary maps `op` to, applied to the
two operand values: exact integer arithmetic, Python `//` is floor
division (`Int.fdiv`), `%` is floor modulo (`Int.fmod`), the bitwise
operators act on the two's-complement representation, `x << y` is
`x * 2 ^ y` and `x >> y` is the arithmetic right shift `x.fdiv (2 ^ y)`,
both raising on a negative count. -/
def applyBinop (op : String) (x y : Int) : Except EvalErr Int :=
  if op = "+" then .ok (x + y)
  else if op = "-" then .ok (x - y)
  else if op = "*" then .ok (x * y)
  else if op = "/" then
    if y = 0 then .error .zeroDivision else .ok (Int.fdiv x y)
  else if op = "%" then
    if y = 0 then .error .zeroDivision else .ok (Int.fmod x y)
  else if op = "&" then .ok (Int.land x y)
  else if op = "|" then .ok (Int.lor x y)
  else if op = "^" then .ok (Int.xor x y)
  else if op = "<<" then
    if y < 0 then .error .negativeShift else .ok (x * 2 ^ y.toNat)
  else if op = ">>" then
    if y < 0 then .error .negativeShift else .ok (Int.fdiv x (2 ^ y.toNat))
  else .error .malformed

/-- The key set of the unary-operator dictionary. -/
def isUnop (op : String) : Bool :=
  op = "-" || op = "~"

/-- The lambda the unary-operator dictionary maps `op` to: negation, or
Python `~x = -x - 1`. -/
def applyUnop (op : String) (x : Int) : Except EvalErr Int :=
  if op = "-" then .ok (-x)
  else if op = "~" then .ok (-x - 1)
  else .error .malformed

/-- `evaluate_expression(vars, node)` of bx0_interpreter.py.  A `var`
node looks its value up in `vars`, exiting the run when absent; a
`num` node returns its literal value unchanged (no truncation); `binop`
and `unop` nodes look the operator up in the operator dictionary
(`KeyError`, modelled `.malformed`, when absent), evaluate the operand
nodes left to right, apply the operator exactly and truncate the result.
Nodes of any other shape crash the Python process (modelled `.malformed`);
the parser never builds them. -/
def evaluate_expression (vars : Env) : Node → Except EvalErr Int
  | .mk "var" (.str name) _ =>
      match lookupVar vars name with
      | some v => .ok v
      | Option.none => .error (.undefinedVariable name)
  | .mk "num" (.int v) _ => .ok v
  | .mk "binop" (.str op) (.node l :: .node r :: _) =>
      if isBinop op then
        match evaluate_expression vars l with
        | .error e => .error e
        | .ok x =>
          match evaluate_expression vars r with
          | .error e => .error e
          | .ok y =>
            match applyBinop op x y with
            | .error e => .error e
            | .ok res => .ok (truncate_number res)
      else .error .malformed
  | .mk "unop" (.str op) (.node k :: _) =>
      if isUnop op then
        match evaluate_expression vars k with
        | .error e => .error e
        | .ok x =>
          match applyUnop op x with
          | .error e => .error e
          | .ok res => .ok (truncate_number res)
      else .error .malformed
  | _ => .error .malformed

/-- `process_stmt(vars, node)`: an `assign` node evaluates
`kids[1]` and binds the result to the name `kids[0]`; any other node is
treated as a print statement, evaluating the expression stored in
`node.value` and emitting its decimal representation as one output line.
Returns the updated environment and the emitted line, if any. -/
def process_stmt (vars : Env) (node : Node) :
    Except EvalErr (Env × Option String) :=
  if node.opcode = "assign" then
    match node.kids with
    | .str name :: .node e :: _ =>
        match evaluate_expression vars e with
        | .error err => .error err
        | .ok v => .ok (setVar vars name v, Option.none)
    | _ => .error .malformed
  else
    match node.value with
    | .node e =>
        match evaluate_expression vars e with
        | .error err => .error err
        | .ok v => .ok (vars, some (toString v))
    | _ => .error .malformed

/-- The statement loop of `main`: while the current `statements` node has
kids, process `kids[0]` and advance to `kids[1]`.  Accumulates the output
lines; an error (`sys.exit` or an uncaught exception) aborts the walk,
returning the lines printed so far and the error. -/
def runStatements (vars : Env) (acc : List String) :
    Node → List String × Option EvalErr
  | .mk _ _ [] => (acc, Option.none)
  | .mk _ _ (.str _ :: _) => (acc, some .malformed)
  | .mk _ _ (.node s :: rest) =>
      match process_stmt vars s with
      | .error e => (acc, some e)
      | .ok (env', out?) =>
          match rest with
          | .node next :: _ => runStatements env' (acc ++ out?.toList) next
          | _ => (acc ++ out?.toList, some .malformed)
termination_by structural n => n

/-- The token types consumed by the parser, produced by the external
scanner; `IDENT` and `NUMBER` carry their literal values. -/
inductive Token where
  | IDENT : String → Token
  | NUMBER : Int → Token
  | PLUS : Token
  | MINUS : Token
  | STAR : Token
  | SLASH : Token
  | PERCENT : Token
  | AMP : Token
  | BAR : Token
  | CARET : Token
  | LTLT : Token
  | GTGT : Token
  | TILDE : Token
  | EQ : Token
  | SEMICOLON : Token
  | LPAREN : Token
  | RPAREN : Token
  | PRINT : Token
deriving DecidableEq, Repr

/-- The level the precedence table of parser.py assigns to a binary
operator token (lowest `BAR` = 1 up to `STAR`/`SLASH`/`PERCENT` = 6),
paired with the operator symbol the AST records.  Every level is declared
left-associative. -/
def binopLevel : Token → Option (String × Nat)
  | .BAR => some ("|", 1)
  | .CARET => some ("^", 2)
  | .AMP => some ("&", 3)
  | .LTLT => some ("<<", 4)
  | .GTGT => some (">>", 4)
  | .PLUS => some ("+", 5)
  | .MINUS => some ("-", 5)
  | .STAR => some ("*", 6)
  | .SLASH => some ("/", 6)
  | .PERCENT => some ("%", 6)
  | _ => Option.none

/-- The level of the fake `UMINUS` token: unary minus sits above every
binary operator. -/
def uminusLevel : Nat := 7

/-- The level of `TILDE`: unary complement binds tightest. -/
def tildeLevel : Nat := 8

mutual

/-- Expression parsing for the yacc grammar of parser.py (productions
`p_expr_ident`, `p_expr_number`, `p_expr_binop`, `p_expr_unop`,
`p_expr_parens`), realised by precedence climbing over the declared
precedence table: `parseExpr` parses one expression all of whose top-level
binary operators have level at least `minLevel`.  A unary production of
level `p` (left-associative in the table) absorbs to its right only
operators of level strictly above `p`, so the operand of unary minus is
parsed at level `uminusLevel + 1` and that of `~` at `tildeLevel + 1`.
`fuel` bounds the recursion depth; parsing a list of `n` tokens with fuel
beyond `2 * n + 2` never exhausts it. -/
def parseExpr (fuel : Nat) (minLevel : Nat) (ts : List Token) :
    Option (Node × List Token) :=
  match fuel with
  | 0 => Option.none
  | fuel + 1 =>
    match ts with
    | .MINUS :: rest =>
        match parseExpr fuel (uminusLevel + 1) rest with
        | some (e, ts') =>
            parseBinOps fuel minLevel (.mk "unop" (.str "-") [.node e]) ts'
        | Option.none => Option.none
    | .TILDE :: rest =>
        match parseExpr fuel (tildeLevel + 1) rest with
        | some (e, ts') =>
            parseBinOps fuel minLevel (.mk "unop" (.str "~") [.node e]) ts'
        | Option.none => Option.none
    | .LPAREN :: rest =>
        match parseExpr fuel 1 rest with
        | some (e, .RPAREN :: ts') => parseBinOps fuel minLevel e ts'
        | _ => Option.none
    | .IDENT s :: rest =>
        parseBinOps fuel minLevel (.mk "var" (.str s) []) rest
    | .NUMBER n :: rest =>
        parseBinOps fuel minLevel (.mk "num" (.int n) []) rest
    | _ => Option.none

/-- The left-associative binary-operator loop: while the next token is a
binary operator of level at least `minLevel`, parse its right operand at
the next level up (so equal levels associate to the left, as declared)
and build the `binop` node. -/
def parseBinOps (fuel : Nat) (minLevel : Nat) (lhs : Node) (ts : List Token) :
    Option (Node × List Token) :=
  match fuel with
  | 0 => Option.none
  | fuel + 1 =>
    match ts with
    | t :: rest =>
        match binopLevel t with
        | some (sym, p) =>
            if minLevel ≤ p then
              match parseExpr fuel (p + 1) rest with
              | some (rhs, ts') =>
                  parseBinOps fuel minLevel
                    (.mk "binop" (.str sym) [.node lhs, .node rhs]) ts'
              | Option.none => Option.none
            else some (lhs, ts)
        | Option.none => some (lhs, ts)
    | [] => some (lhs, [])

end

/-- One statement: `assign : IDENT EQ expr SEMICOLON` builds
`Node('assign', '=', name, expr)` — the `'='` symbol is the value and the
target name and expression are the two kids; `print : PRINT LPAREN expr
RPAREN SEMICOLON` builds `Node('print', expr)` — the expression is stored
in the `value` field and the node has no kids. -/
def parseStmt (fuel : Nat) (ts : List Token) : Option (Node × List Token) :=
  match ts with
  | .IDENT name :: .EQ :: rest =>
      match parseExpr fuel 1 rest with
      | some (e, .SEMICOLON :: ts') =>
          some (.mk "assign" (.str "=") [.str name, .node e], ts')
      | _ => Option.none
  | .PRINT :: .LPAREN :: rest =>
      match parseExpr fuel 1 rest with
      | some (e, .RPAREN :: .SEMICOLON :: ts') =>
          some (.mk "print" (.node e) [], ts')
      | _ => Option.none
  | _ => Option.none

/-- `program := ε | stmt program` with start symbol `program`: at the end
of the input the empty `statements` sentinel is produced; otherwise one
statement must parse and the right-leaning chain continues.  A token
sequence fitting neither production is a syntax error, modelled `none`
(parser.py raises `SyntaxError` from `p_error`). -/
def parseProgram (fuel : Nat) (ts : List Token) : Option Node :=
  match fuel with
  | 0 => Option.none
  | fuel + 1 =>
    match ts with
    | [] => some (.mk "statements" .none [])
    | _ =>
      match parseStmt fuel ts with
      | some (s, ts') =>
          match parseProgram fuel ts' with
          | some rest => some (.mk "statements" .none [.node s, .node rest])
          | Option.none => Option.none
      | Option.none => Option.none

/-! ### Properties of the truncation -/

/-- `truncate_number` lands in the signed 64-bit range
`[-9223372036854775808, 9223372036854775808)`. -/
theorem truncate_number_bounds (n : Int) :
    -9223372036854775808 ≤ truncate_number n ∧
    truncate_number n < 9223372036854775808 := by
  simp only [truncate_number]
  split <;> omega

/-- `truncate_number` fixes every value already in the signed 64-bit
range. -/
theorem truncate_number_fixed {n : Int} (h1 : -9223372036854775808 ≤ n)
    (h2 : n < 9223372036854775808) : truncate_number n = n := by
  simp only [truncate_number]
  split <;> omega

/-- `truncate_number` is idempotent. -/
theorem truncate_number_idem (n : Int) :
    truncate_number (truncate_number n) = truncate_number n :=
  truncate_number_fixed (truncate_number_bounds n).1 (truncate_number_bounds n).2

/-! ### Claims about the evaluator -/

/-- C1: the evaluator computes every binary and unary operation in exact
integer arithmetic and then truncates the result to 64-bit
two's-complement (reduce modulo 2^64, subtract 2^64 when the sign bit is
set), so the returned value lies in `[-2^63, 2^63)`; in particular
`BinOp(+, Num(2^63 - 1), Num(1))` evaluates to `-2^63`. -/
theorem c1_binop_unop_truncated :
    (∀ (vars : Env) (op : String) (l r : Node) (ks : List Kid) (x y res : Int),
        isBinop op = true →
        evaluate_expression vars l = .ok x →
        evaluate_expression vars r = .ok y →
        applyBinop op x y = .ok res →
        evaluate_expression vars (.mk "binop" (.str op) (.node l :: .node r :: ks)) =
          .ok (truncate_number res)) ∧
    (∀ (vars : Env) (op : String) (k : Node) (ks : List Kid) (x res : Int),
        isUnop op = true →
        evaluate_expression vars k = .ok x →
        applyUnop op x = .ok res →
        evaluate_expression vars (.mk "unop" (.str op) (.node k :: ks)) =
          .ok (truncate_number res)) ∧
    (∀ n : Int, -(2 ^ 63) ≤ truncate_number n ∧ truncate_number n < 2 ^ 63) ∧
    evaluate_expression []
      (.mk "binop" (.str "+")
        [.node (.mk "num" (.int (2 ^ 63 - 1)) []), .node (.mk "num" (.int 1) [])]) =
      .ok (-(2 ^ 63)) := by
  refine ⟨?_, ?_, ?_, rfl⟩
  · intro vars op l r ks x y res hop hx hy hres
    simp [evaluate_expression, hop, hx, hy, hres]
  · intro vars op k ks x res hop hx hres
    simp [evaluate_expression, hop, hx, hres]
  · intro n
    have h := truncate_number_bounds n
    norm_num
    omega

/-- Witness for C1 at `5 + 7` and unary minus of `5`. -/
theorem c1_binop_unop_truncated_witness :
    evaluate_expression []
      (.mk "binop" (.str "+")
        [.node (.mk "num" (.int 5) []), .node (.mk "num" (.int 7) [])]) =
      .ok (truncate_number 12) ∧
    evaluate_expression []
      (.mk "unop" (.str "-") [.node (.mk "num" (.int 5) [])]) =
      .ok (truncate_number (-5)) :=
  ⟨c1_binop_unop_truncated.1 [] "+" (.mk "num" (.int 5) []) (.mk "num" (.int 7) [])
      [] 5 7 12 rfl rfl rfl rfl,
   c1_binop_unop_truncated.2.1 [] "-" (.mk "num" (.int 5) []) [] 5 (-5) rfl rfl rfl⟩

/-- C4: a `Num(v)` node evaluates to exactly `v` in any environment, with
no truncation; in particular a literal outside the signed 64-bit range,
such as 2^64 + 5, is returned untouched. -/
theorem c4_num_literal_untruncated :
    (∀ (vars : Env) (v : Int) (ks : List Kid),
        evaluate_expression vars (.mk "num" (.int v) ks) = .ok v) ∧
    evaluate_expression [] (.mk "num" (.int 18446744073709551621) []) =
      .ok 18446744073709551621 :=
  ⟨fun _ _ _ => rfl, rfl⟩

/-- Witness for C4 at the literal 5. -/
theorem c4_num_literal_untruncated_witness :
    evaluate_expression [] (.mk "num" (.int 5) []) = .ok 5 :=
  c4_num_literal_untruncated.1 [] 5 []

/-- C10: `truncate_number` maps every integer into `[-2^63, 2^63)` and is
idempotent; consequently every value the evaluator returns for a `binop`
or `unop` node is a fixed point of `truncate_number`. -/
theorem c10_truncation_idempotent_range_fixing :
    (∀ n : Int, -(2 ^ 63) ≤ truncate_number n ∧ truncate_number n < 2 ^ 63) ∧
    (∀ n : Int, truncate_number (truncate_number n) = truncate_number n) ∧
    (∀ (vars : Env) (node : Node) (v : Int),
        node.opcode = "binop" ∨ node.opcode = "unop" →
        evaluate_expression vars node = .ok v →
        truncate_number v = v) := by
  refine ⟨?_, truncate_number_idem, ?_⟩
  · intro n
    have h := truncate_number_bounds n
    norm_num
    omega
  · intro vars node v hop hv
    unfold evaluate_expression at hv
    split at hv
    · split at hv <;> simp_all [Node.opcode]
    · simp_all [Node.opcode]
    · split at hv
      · split at hv
        · simp at hv
        · split at hv
          · simp at hv
          · split at hv
            · simp at hv
            · injection hv with h
              rw [← h]
              exact truncate_number_idem _
      · simp at hv
    · split at hv
      · split at hv
        · simp at hv
        · split at hv
          · simp at hv
          · injection hv with h
            rw [← h]
            exact truncate_number_idem _
      · simp at hv
    · simp at hv

/-- For a negative divisor, floor modulo is bounded by `(y, 0]`: its sign
follows the divisor.  Proved by the case analysis of `Int.fmod`. -/
theorem fmod_neg_divisor_bounds (x : Int) {y : Int} (hy : y < 0) :
    y < Int.fmod x y ∧ Int.fmod x y ≤ 0 := by
  match y, hy with
  | .negSucc n, _ =>
    match x with
    | .ofNat 0 =>
        show Int.negSucc n < Int.fmod 0 (.negSucc n) ∧ Int.fmod 0 (.negSucc n) ≤ 0
        rw [show Int.fmod 0 (.negSucc n) = 0 from rfl]
        constructor <;> omega
    | .ofNat (m + 1) =>
        show Int.negSucc n < Int.subNatNat (m % (n + 1)) n ∧
          Int.subNatNat (m % (n + 1)) n ≤ 0
        rw [Int.subNatNat_eq_coe]
        have := Nat.mod_lt m (y := n + 1) (by omega)
        simp only [Int.negSucc_eq]
        constructor <;> omega
    | .negSucc m =>
        show Int.negSucc n < -Int.ofNat ((m + 1) % (n + 1)) ∧
          -Int.ofNat ((m + 1) % (n + 1)) ≤ 0
        have := Nat.mod_lt (m + 1) (y := n + 1) (by omega)
        simp only [Int.negSucc_eq, Int.ofNat_eq_coe]
        constructor <;> omega

/-- C3: `/` is floor division and `%` is floor modulo whose result's sign
follows the divisor: `BinOp(/, Num(-7), Num(2))` evaluates to `-4` and
`BinOp(%, Num(-7), Num(2))` to `1`; in general the quotient `q = x.fdiv y`
the evaluator computes satisfies `y * q ≤ x < y * q + y` for `0 < y`
(that is, `q = floor(x / y)`), the remainder satisfies
`x = y * q + x.fmod y` with `0 ≤ x.fmod y < y` for `0 < y`, and
`y < x.fmod y ≤ 0` for `y < 0`. -/
theorem c3_floor_division_modulo :
    evaluate_expression []
      (.mk "binop" (.str "/")
        [.node (.mk "num" (.int (-7)) []), .node (.mk "num" (.int 2) [])]) =
      .ok (-4) ∧
    evaluate_expression []
      (.mk "binop" (.str "%")
        [.node (.mk "num" (.int (-7)) []), .node (.mk "num" (.int 2) [])]) =
      .ok 1 ∧
    (∀ x y : Int, y ≠ 0 →
        applyBinop "/" x y = .ok (Int.fdiv x y) ∧
        applyBinop "%" x y = .ok (Int.fmod x y)) ∧
    (∀ x y : Int, 0 < y →
        y * Int.fdiv x y ≤ x ∧ x < y * Int.fdiv x y + y ∧
        x = y * Int.fdiv x y + Int.fmod x y ∧
        0 ≤ Int.fmod x y ∧ Int.fmod x y < y) ∧
    (∀ x y : Int, y < 0 → y < Int.fmod x y ∧ Int.fmod x y ≤ 0) := by
  refine ⟨rfl, rfl, ?_, ?_, fun x y hy => fmod_neg_divisor_bounds x hy⟩
  · intro x y hy
    constructor <;> simp [applyBinop, hy]
  · intro x y hy
    have hid := Int.fmod_add_fdiv x y
    have h1 := Int.fmod_nonneg' x hy
    have h2 := Int.fmod_lt_of_pos x hy
    constructor
    · nlinarith [hid]
    refine ⟨by nlinarith [hid], by omega, h1, h2⟩

/-- Witness for C3 at `x = -7` with divisors `2` and `-2`. -/
theorem c3_floor_division_modulo_witness :
    (applyBinop "/" (-7) 2 = .ok (Int.fdiv (-7) 2) ∧
      applyBinop "%" (-7) 2 = .ok (Int.fmod (-7) 2)) ∧
    (2 * Int.fdiv (-7) 2 ≤ -7 ∧ (-7 : Int) < 2 * Int.fdiv (-7) 2 + 2 ∧
      (-7 : Int) = 2 * Int.fdiv (-7) 2 + Int.fmod (-7) 2 ∧
      0 ≤ Int.fmod (-7) 2 ∧ Int.fmod (-7) 2 < 2) ∧
    ((-2 : Int) < Int.fmod (-7) (-2) ∧ Int.fmod (-7) (-2) ≤ 0) :=
  ⟨c3_floor_division_modulo.2.2.1 (-7) 2 (by decide),
   c3_floor_division_modulo.2.2.2.1 (-7) 2 (by decide),
   c3_floor_division_modulo.2.2.2.2 (-7) (-2) (by decide)⟩

/-! ### Claims about the parser -/

/-- C2 counterexample: the grammar's only statements are assignments and
prints, so the bare expression statement `a + b | c;` is a syntax error —
parsing it produces no AST at all. -/
theorem c2_counterexample :
    parseProgram 32 [.IDENT "a", .PLUS, .IDENT "b", .BAR, .IDENT "c", .SEMICOLON] =
      Option.none := rfl

/-- C2 (amended): inside a statement the bitwise operators all bind
looser than the arithmetic ones, in the order (loosest first)
`| ^ & << >> + - * / %`: `s = a + b | c;` parses with `|` above `+`, and
`s = a | b ^ c & d << e + f * g;` parses as the fully right-nested chain
`a | (b ^ (c & (d << (e + (f * g)))))`. -/
theorem c2_bitwise_below_arithmetic (s a b c d e f g : String) :
    parseProgram 32
      [.IDENT s, .EQ, .IDENT a, .PLUS, .IDENT b, .BAR, .IDENT c, .SEMICOLON] =
      some (.mk "statements" .none
        [.node (.mk "assign" (.str "=")
          [.str s, .node (.mk "binop" (.str "|")
            [.node (.mk "binop" (.str "+")
               [.node (.mk "var" (.str a) []), .node (.mk "var" (.str b) [])]),
             .node (.mk "var" (.str c) [])])]),
         .node (.mk "statements" .none [])]) ∧
    parseProgram 32
      [.IDENT s, .EQ, .IDENT a, .BAR, .IDENT b, .CARET, .IDENT c, .AMP, .IDENT d,
       .LTLT, .IDENT e, .PLUS, .IDENT f, .STAR, .IDENT g, .SEMICOLON] =
      some (.mk "statements" .none
        [.node (.mk "assign" (.str "=")
          [.str s, .node (.mk "binop" (.str "|")
            [.node (.mk "var" (.str a) []),
             .node (.mk "binop" (.str "^")
               [.node (.mk "var" (.str b) []),
                .node (.mk "binop" (.str "&")
                  [.node (.mk "var" (.str c) []),
                   .node (.mk "binop" (.str "<<")
                     [.node (.mk "var" (.str d) []),
                      .node (.mk "binop" (.str "+")
                        [.node (.mk "var" (.str e) []),
                         .node (.mk "binop" (.str "*")
                           [.node (.mk "var" (.str f) []),
                            .node (.mk "var" (.str g) [])])])])])])])]),
         .node (.mk "statements" .none [])]) := ⟨rfl, rfl⟩

/-- Witness for C2 (amended) at concrete identifiers. -/
theorem c2_bitwise_below_arithmetic_witness :
    parseProgram 32
      [.IDENT "s", .EQ, .IDENT "a", .PLUS, .IDENT "b", .BAR, .IDENT "c", .SEMICOLON] =
      some (.mk "statements" .none
        [.node (.mk "assign" (.str "=")
          [.str "s", .node (.mk "binop" (.str "|")
            [.node (.mk "binop" (.str "+")
               [.node (.mk "var" (.str "a") []), .node (.mk "var" (.str "b") [])]),
             .node (.mk "var" (.str "c") [])])]),
         .node (.mk "statements" .none [])]) :=
  (c2_bitwise_below_arithmetic "s" "a" "b" "c" "d" "e" "f" "g").1

/-- C6 counterexample: `- w - - w;` is not a statement of the grammar
(statements are only assignments and prints), so parsing it produces no
AST at all. -/
theorem c6_counterexample :
    parseProgram 32 [.MINUS, .IDENT "w", .MINUS, .MINUS, .IDENT "w", .SEMICOLON] =
      Option.none := rfl

/-- C6 (amended): inside a statement unary minus binds more tightly than
every binary operator (it sits at the fake `UMINUS` level, above
`* / %`) and less tightly than `~`: `s = - w - - w;` parses as
`BinOp(-, UnOp(-, w), UnOp(-, w))` and `s = - w * w;` parses as
`BinOp(*, UnOp(-, w), w)`. -/
theorem c6_unary_minus_precedence (s w : String) :
    parseProgram 32
      [.IDENT s, .EQ, .MINUS, .IDENT w, .MINUS, .MINUS, .IDENT w, .SEMICOLON] =
      some (.mk "statements" .none
        [.node (.mk "assign" (.str "=")
          [.str s, .node (.mk "binop" (.str "-")
            [.node (.mk "unop" (.str "-") [.node (.mk "var" (.str w) [])]),
             .node (.mk "unop" (.str "-") [.node (.mk "var" (.str w) [])])])]),
         .node (.mk "statements" .none [])]) ∧
    parseProgram 32
      [.IDENT s, .EQ, .MINUS, .IDENT w, .STAR, .IDENT w, .SEMICOLON] =
      some (.mk "statements" .none
        [.node (.mk "assign" (.str "=")
          [.str s, .node (.mk "binop" (.str "*")
            [.node (.mk "unop" (.str "-") [.node (.mk "var" (.str w) [])]),
             .node (.mk "var" (.str w) [])])]),
         .node (.mk "statements" .none [])]) := ⟨rfl, rfl⟩

/-- Witness for C6 (amended) at concrete identifiers. -/
theorem c6_unary_minus_precedence_witness :
    parseProgram 32
      [.IDENT "s", .EQ, .MINUS, .IDENT "w", .MINUS, .MINUS, .IDENT "w", .SEMICOLON] =
      some (.mk "statements" .none
        [.node (.mk "assign" (.str "=")
          [.str "s", .node (.mk "binop" (.str "-")
            [.node (.mk "unop" (.str "-") [.node (.mk "var" (.str "w") [])]),
             .node (.mk "unop" (.str "-") [.node (.mk "var" (.str "w") [])])])]),
         .node (.mk "statements" .none [])]) :=
  (c6_unary_minus_precedence "s" "w").1

/-- C5 counterexample: the parser's `Print` node stores the printed
expression in its `value` field and has an empty kids tuple, and its
`Assign` node stores the `'='` symbol as value with the target name and
the expression as its two kids — parsing `print(x);` and `y = x;`
exhibits both shapes. -/
theorem c5_counterexample :
    parseStmt 32 [.PRINT, .LPAREN, .IDENT "x", .RPAREN, .SEMICOLON] =
      some (.mk "print" (.node (.mk "var" (.str "x") [])) [], []) ∧
    (Node.mk "print" (.node (.mk "var" (.str "x") [])) []).value =
      NVal.node (.mk "var" (.str "x") []) ∧
    (Node.mk "print" (.node (.mk "var" (.str "x") [])) []).kids = [] ∧
    parseStmt 32 [.IDENT "y", .EQ, .IDENT "x", .SEMICOLON] =
      some (.mk "assign" (.str "=") [.str "y", .node (.mk "var" (.str "x") [])], []) :=
  ⟨rfl, rfl, rfl, rfl⟩

/-- C5 (amended): every statement node the parser builds is an `assign`
or a `print`; a `print` node carries the printed expression as its
`value` payload and has no kids, and an `assign` node carries the symbol
`'='` as payload and exactly two kids, the target name string and the
value expression. -/
theorem c5_parsed_statement_shape (fuel : Nat) (ts leftover : List Token)
    (stmt : Node) (h : parseStmt fuel ts = some (stmt, leftover)) :
    (stmt.opcode = "assign" ∨ stmt.opcode = "print") ∧
    (stmt.opcode = "print" →
      ∃ e : Node, stmt.value = NVal.node e ∧ stmt.kids = []) ∧
    (stmt.opcode = "assign" → ∃ (name : String) (e : Node),
      stmt.value = NVal.str "=" ∧ stmt.kids = [Kid.str name, Kid.node e]) := by
  unfold parseStmt at h
  split at h
  · rename_i name rest0
    split at h
    · rename_i e ts' heq
      simp only [Option.some.injEq, Prod.mk.injEq] at h
      obtain ⟨h1, h2⟩ := h
      subst h1
      refine ⟨Or.inl rfl, ?_, ?_⟩
      · intro hc
        simp [Node.opcode] at hc
      · intro
        exact ⟨name, e, rfl, rfl⟩
    · simp at h
  · rename_i rest0
    split at h
    · rename_i e ts' heq
      simp only [Option.some.injEq, Prod.mk.injEq] at h
      obtain ⟨h1, h2⟩ := h
      subst h1
      refine ⟨Or.inr rfl, ?_, ?_⟩
      · intro
        exact ⟨e, rfl, rfl⟩
      · intro hc
        simp [Node.opcode] at hc
    · simp at h
  · simp at h

/-- Witness for C5 (amended) at the statement `print(x);`. -/
theorem c5_parsed_statement_shape_witness :
    ((Node.mk "print" (.node (.mk "var" (.str "x") [])) []).opcode = "assign" ∨
      (Node.mk "print" (.node (.mk "var" (.str "x") [])) []).opcode = "print") ∧
    ((Node.mk "print" (.node (.mk "var" (.str "x") [])) []).opcode = "print" →
      ∃ e : Node,
        (Node.mk "print" (.node (.mk "var" (.str "x") [])) []).value = NVal.node e ∧
        (Node.mk "print" (.node (.mk "var" (.str "x") [])) []).kids = []) ∧
    ((Node.mk "print" (.node (.mk "var" (.str "x") [])) []).opcode = "assign" →
      ∃ (name : String) (e : Node),
        (Node.mk "print" (.node (.mk "var" (.str "x") [])) []).value = NVal.str "=" ∧
        (Node.mk "print" (.node (.mk "var" (.str "x") [])) []).kids =
          [Kid.str name, Kid.node e]) :=
  c5_parsed_statement_shape 32 [.PRINT, .LPAREN, .IDENT "x", .RPAREN, .SEMICOLON]
    [] (.mk "print" (.node (.mk "var" (.str "x") [])) []) rfl

/-- C7: evaluating a `var` node whose name is missing from the
environment produces the fatal `UndefinedVariable` error naming the
variable (the interpreter prints the diagnostic and exits with status 1),
and the statement walk stops there, executing none of the remaining
statements; a bound name evaluates to its value unchanged. -/
theorem c7_undefined_variable_fatal :
    (∀ (vars : Env) (name : String) (ks : List Kid),
        lookupVar vars name = Option.none →
        evaluate_expression vars (.mk "var" (.str name) ks) =
          .error (.undefinedVariable name)) ∧
    (∀ (vars : Env) (name : String) (ks : List Kid) (v : Int),
        lookupVar vars name = some v →
        evaluate_expression vars (.mk "var" (.str name) ks) = .ok v) ∧
    (∀ (vars : Env) (acc : List String) (s tail : Node) (ks : List Kid)
        (e : EvalErr),
        process_stmt vars s = .error e →
        runStatements vars acc (.mk "statements" .none (.node s :: .node tail :: ks)) =
          (acc, some e)) := by
  refine ⟨?_, ?_, ?_⟩
  · intro vars name ks h
    simp [evaluate_expression, h]
  · intro vars name ks v h
    simp [evaluate_expression, h]
  · intro vars acc s tail ks e h
    simp [runStatements, h]

/-- Witness for C7: the program `print(q); print(1);` with an empty
environment emits nothing and stops with `UndefinedVariable q` before the
second print. -/
theorem c7_undefined_variable_fatal_witness :
    evaluate_expression [] (.mk "var" (.str "q") []) =
      .error (.undefinedVariable "q") ∧
    runStatements [] []
      (.mk "statements" .none
        [.node (.mk "print" (.node (.mk "var" (.str "q") [])) []),
         .node (.mk "statements" .none
           [.node (.mk "print" (.node (.mk "num" (.int 1) [])) []),
            .node (.mk "statements" .none [])])]) =
      ([], some (.undefinedVariable "q")) :=
  ⟨c7_undefined_variable_fatal.1 [] "q" [] rfl,
   c7_undefined_variable_fatal.2.2 [] []
     (.mk "print" (.node (.mk "var" (.str "q") [])) [])
     (.mk "statements" .none
       [.node (.mk "print" (.node (.mk "num" (.int 1) [])) []),
        .node (.mk "statements" .none [])])
     [] (.undefinedVariable "q") rfl⟩

/-- C8: a division or modulo whose right operand evaluates to zero
produces the uncaught `ZeroDivisionError` (no handler exists anywhere in
the interpreter), and the statement walk aborts there with no recovery
and no further output. -/
theorem c8_zero_divisor_uncaught :
    (∀ (vars : Env) (l r : Node) (ks : List Kid) (x : Int),
        evaluate_expression vars l = .ok x →
        evaluate_expression vars r = .ok 0 →
        evaluate_expression vars
            (.mk "binop" (.str "/") (.node l :: .node r :: ks)) =
          .error .zeroDivision ∧
        evaluate_expression vars
            (.mk "binop" (.str "%") (.node l :: .node r :: ks)) =
          .error .zeroDivision) ∧
    (∀ (vars : Env) (acc : List String) (s tail : Node) (ks : List Kid),
        process_stmt vars s = .error .zeroDivision →
        runStatements vars acc (.mk "statements" .none (.node s :: .node tail :: ks)) =
          (acc, some .zeroDivision)) := by
  refine ⟨?_, ?_⟩
  · intro vars l r ks x hx hy
    constructor <;> simp [evaluate_expression, hx, hy, applyBinop, isBinop]
  · intro vars acc s tail ks h
    simp [runStatements, h]

/-- Witness for C8: the program `print(1 / 0);` emits nothing and aborts
with the zero-division fault. -/
theorem c8_zero_divisor_uncaught_witness :
    (evaluate_expression []
        (.mk "binop" (.str "/")
          [.node (.mk "num" (.int 1) []), .node (.mk "num" (.int 0) [])]) =
        .error .zeroDivision ∧
      evaluate_expression []
        (.mk "binop" (.str "%")
          [.node (.mk "num" (.int 1) []), .node (.mk "num" (.int 0) [])]) =
        .error .zeroDivision) ∧
    runStatements [] []
      (.mk "statements" .none
        [.node (.mk "print" (.node (.mk "binop" (.str "/")
            [.node (.mk "num" (.int 1) []), .node (.mk "num" (.int 0) [])])) []),
         .node (.mk "statements" .none [])]) =
      ([], some .zeroDivision) :=
  ⟨c8_zero_divisor_uncaught.1 [] (.mk "num" (.int 1) []) (.mk "num" (.int 0) [])
      [] 1 rfl rfl,
   c8_zero_divisor_uncaught.2 [] []
     (.mk "print" (.node (.mk "binop" (.str "/")
        [.node (.mk "num" (.int 1) []), .node (.mk "num" (.int 0) [])])) [])
     (.mk "statements" .none []) [] rfl⟩

/-- C9: the statement walk executes the parsed statements in program
order against the one shared environment, and each print statement emits
exactly one decimal output line: after one processed statement the walk
continues on the tail with the updated environment and output, and the
program `x = 1; print(x); x = 2; print(x);`, parsed and run, outputs the
line `1` and then the line `2` with no error. -/
theorem c9_program_order_output :
    (∀ (vars env' : Env) (acc : List String) (s tail : Node) (ks : List Kid)
        (out? : Option String),
        process_stmt vars s = .ok (env', out?) →
        runStatements vars acc (.mk "statements" .none (.node s :: .node tail :: ks)) =
          runStatements env' (acc ++ out?.toList) tail) ∧
    (parseProgram 64
        [.IDENT "x", .EQ, .NUMBER 1, .SEMICOLON,
         .PRINT, .LPAREN, .IDENT "x", .RPAREN, .SEMICOLON,
         .IDENT "x", .EQ, .NUMBER 2, .SEMICOLON,
         .PRINT, .LPAREN, .IDENT "x", .RPAREN, .SEMICOLON]).map
        (fun prog => runStatements [] [] prog) =
      some (["1", "2"], Option.none) := by
  refine ⟨?_, rfl⟩
  intro vars env' acc s tail ks out? h
  simp [runStatements, h]

/-- Witness for C9: processing `x = 1;` succeeds and the walk continues
on the tail with the updated environment. -/
theorem c9_program_order_output_witness :
    runStatements [] []
      (.mk "statements" .none
        [.node (.mk "assign" (.str "=") [.str "x", .node (.mk "num" (.int 1) [])]),
         .node (.mk "statements" .none [])]) =
      runStatements [("x", 1)] ([] ++ (Option.none : Option String).toList)
        (.mk "statements" .none []) :=
  c9_program_order_output.1 [] [("x", 1)] []
    (.mk "assign" (.str "=") [.str "x", .node (.mk "num" (.int 1) [])])
    (.mk "statements" .none []) [] Option.none rfl

/-- Witness for C10 at the `binop` node `5 + 7`. -/
theorem c10_truncation_idempotent_range_fixing_witness :
    truncate_number 12 = 12 :=
  c10_truncation_idempotent_range_fixing.2.2 []
    (.mk "binop" (.str "+")
      [.node (.mk "num" (.int 5) []), .node (.mk "num" (.int 7) [])])
    12 (Or.inl rfl) rfl

end BX0
